import Mathlib

/-!
Shallow embedding of the build-library / launch-supervision core of the
launcher (`src/src/onboard.tsx`), together with proofs about it.

The embedding follows the TypeScript source statement by statement:
  * `bytesToBase64`  — the chunked binary-to-base64 helper (onboard.tsx 24-31);
  * `getFolderName`  — display-name derivation (onboard.tsx 32-35);
  * `addBuild`       — validation, capacity check, cover extraction and
                       commit (onboard.tsx 218-258);
  * `removeBuild`    — removal and selection reassignment (onboard.tsx 260-270);
  * `handleLaunch`   — launch preconditions and external command
                       (onboard.tsx 171-199);
  * `handleLogout`   — the logout cascade together with the persistence
                       effects it triggers (onboard.tsx 201-207, 101-107);
  * the polling loop — the `isLaunching` effect (onboard.tsx 110-129).

Machine-level effects (Tauri `invoke`, `exists`, `readBinaryFile`) are
modelled as explicit environment values of type `Except`; React state is a
record threaded through each handler.
-/

/-- Standard base64 alphabet character for a 6-bit value, as used by the
browser `btoa` primitive. -/
def b64Char (n : Nat) : Char :=
  "ABCDEFGHIJKLMNOPQRSTUVWXYZabcdefghijklmnopqrstuvwxyz0123456789+/".toList.getD n '='

/-- Base64 encoding of a byte list in one pass over 3-byte groups, with
`=` padding: the semantics of `btoa` applied to a latin-1 string whose
character codes are the bytes. -/
def btoaModel : List Nat → List Char
  | [] => []
  | [a] => [b64Char (a / 4), b64Char (a % 4 * 16), '=', '=']
  | [a, b] => [b64Char (a / 4), b64Char (a % 4 * 16 + b / 16), b64Char (b % 16 * 4), '=']
  | a :: b :: c :: rest =>
      b64Char (a / 4) :: b64Char (a % 4 * 16 + b / 16) ::
      b64Char (b % 16 * 4 + c / 64) :: b64Char (c % 64) :: btoaModel rest

/-- The chunk size used by `bytesToBase64` in the source: `0x8000`. -/
def chunkSize : Nat := 0x8000

/-- The loop of `bytesToBase64` (onboard.tsx 27-29): the binary string is
built chunk by chunk, `binary += String.fromCharCode.apply(null,
bytes.subarray(i, i + chunk))`, i.e. the concatenation of the byte
sub-lists `[i, i+chunk)`. -/
def chunkedBinary (bytes : List Nat) : List Nat :=
  if bytes = [] then []
  else bytes.take chunkSize ++ chunkedBinary (bytes.drop chunkSize)
termination_by bytes.length
decreasing_by
  rename_i h
  have hlen : 0 < bytes.length := List.length_pos.mpr h
  simp only [List.length_drop, chunkSize]
  omega

/-- `bytesToBase64` (onboard.tsx 24-31): build the binary string in chunks
of `0x8000` bytes, then `btoa` it. -/
def bytesToBase64 (bytes : List Nat) : String :=
  String.mk (btoaModel (chunkedBinary bytes))

/-- The single-pass encoding the spec compares against: base64 of the whole
buffer with no chunking. -/
def singlePassBase64 (bytes : List Nat) : String :=
  String.mk (btoaModel bytes)

/-- JavaScript `p.split(/\\|\//)` on a character list: split at every `\`
or `/`, keeping empty segments (so `"".split` gives `[""]`, and leading,
trailing and doubled separators give empty segments). -/
def jsSplitSeps : List Char → List (List Char)
  | [] => [[]]
  | c :: rest =>
    let r := jsSplitSeps rest
    if c = '\\' ∨ c = '/' then [] :: r
    else
      match r with
      | [] => [[c]]
      | h :: t => (c :: h) :: t

/-- `getFolderName` (onboard.tsx 32-35): split on `\` and `/`, drop falsy
(empty) segments, return the last segment, and fall back to the input
itself when that is missing or empty (`parts[parts.length - 1] || p`). -/
def getFolderName (p : String) : String :=
  let parts := (jsSplitSeps p.toList).filter (fun s => s ≠ [])
  let last := (parts.getLast?).getD []
  if last = [] then p else String.mk last

example : getFolderName "/games/Foo" = "Foo" := by decide
example : getFolderName "C:\\games\\Bar" = "Bar" := by decide
example : getFolderName "///" = "///" := by decide
example : getFolderName "" = "" := by decide

/-- A build library entry (`BuildItem`, onboard.tsx 39): identity token,
installation path, derived display name, optional embedded cover image. -/
structure BuildItem where
  id : String
  path : String
  name : String
  coverDataUrl : Option String
deriving DecidableEq, Repr

/-- The React state of the `Onboard` component that the core handlers read
and write (onboard.tsx 50-55): the build list, the selected path
(`path`, nullable), the session (`user`, nullable), the feature toggle
(`EOR`), the launch flag (`isLaunching`) and the surfaced error. -/
structure AppState where
  builds : List BuildItem
  path : Option String
  user : Option (String × String)
  eor : Bool
  isLaunching : Bool
  error : Option String
deriving DecidableEq, Repr

/-- Filesystem answers the Tauri host gives during one `addBuild` call:
the `exists` probe for the `Engine` subdirectory, the `exists` probe for
the splash resource, and the `readBinaryFile` of the splash. Each may
throw, which the source catches in one `try`/`catch`. -/
structure FsEnv where
  engineExists : Except String Bool
  splashExists : Except String Bool
  splashRead : Except String (List Nat)
deriving Repr

/-- What one `addBuild` run did, read off the branch it took. -/
inductive AddOutcome where
  | notAnInstallation
  | full
  | added
  | fsError (msg : String)
deriving DecidableEq, Repr

/-- Result of `addBuild`: the new state, the branch taken, and whether the
validation probe (the `exists(join(selected, "Engine"))` call) was
issued during the run. -/
structure AddResult where
  state : AppState
  outcome : AddOutcome
  validatorInvoked : Bool
deriving DecidableEq, Repr

/-- `addBuild` (onboard.tsx 218-258), after the directory dialog returned
the string `selected` and with `newId` the freshly generated id.
Statement order is the source's: Engine probe first, then the capacity
check `builds.length >= 16`, then the splash probe and read, then the
commit (prepend entry, select its path, persist). Any thrown filesystem
error lands in the `catch` block, which only surfaces an error. -/
def addBuild (st : AppState) (selected newId : String) (env : FsEnv) : AddResult :=
  match env.engineExists with
  | .error e =>
      ⟨{ st with error := some ("Could not add build: " ++ e) }, .fsError e, true⟩
  | .ok false =>
      ⟨{ st with error := some "Invalid build: The folder must contain an 'Engine' folder." },
        .notAnInstallation, true⟩
  | .ok true =>
      if st.builds.length ≥ 16 then
        ⟨{ st with error := some "Maximum builds in library reached (16). Remove one first." },
          .full, true⟩
      else
        match env.splashExists with
        | .error e =>
            ⟨{ st with error := some ("Could not add build: " ++ e) }, .fsError e, true⟩
        | .ok hasSplash =>
          let commit : Option String → AddResult := fun cover =>
            let item : BuildItem :=
              { id := newId, path := selected, name := getFolderName selected
                coverDataUrl := cover }
            ⟨{ st with builds := item :: st.builds, path := some selected }, .added, true⟩
          if hasSplash then
            match env.splashRead with
            | .error e =>
                ⟨{ st with error := some ("Could not add build: " ++ e) }, .fsError e, true⟩
            | .ok bytes =>
                commit (some ("data:image/bmp;base64," ++ bytesToBase64 bytes))
          else
            commit none

/-- `removeBuild` (onboard.tsx 260-270): filter out the entry with the
given id, and if the removed entry's path strictly equalled the current
selection (`removed && removed.path === path`), reassign the selection
to the new first entry's path, or clear it. -/
def removeBuild (st : AppState) (id : String) : AppState :=
  let next := st.builds.filter (fun b => b.id ≠ id)
  match st.builds.find? (fun b => b.id = id) with
  | some removed =>
      if st.path = some removed.path then
        { st with builds := next, path := next.head?.map (·.path) }
      else
        { st with builds := next }
  | none => { st with builds := next }

/-- JavaScript truthiness of a nullable string: `null` and `""` are falsy. -/
def strTruthy : Option String → Bool
  | none => false
  | some s => s ≠ ""

/-- `path || builds[0]?.path` (onboard.tsx 173): the selected path if
truthy, otherwise the first library entry's path (or `undefined`). -/
def resolveLaunchPath (st : AppState) : Option String :=
  if strTruthy st.path then st.path else st.builds.head?.map (·.path)

/-- Result of one `handleLaunch` call: the final state, every value
assigned to `isLaunching` during the call in order, and whether the
external `firstlaunch` command was issued. -/
structure LaunchResult where
  state : AppState
  launchingAssignments : List Bool
  commandIssued : Bool
deriving DecidableEq, Repr

/-- `handleLaunch` (onboard.tsx 171-199) with `cmd` the outcome the
external `firstlaunch` command would report. The source's statement
order is kept: `setIsLaunching(true)` runs first, then the build-path
check, then the session check, then the command; each failure surfaces
its error and sets `isLaunching` back to `false`. -/
def handleLaunch (st : AppState) (cmd : Except String Unit) : LaunchResult :=
  let s1 := { st with isLaunching := true }
  match resolveLaunchPath st with
  | none =>
      ⟨{ s1 with
          error := some "Please first select a game folder or build in the library."
          isLaunching := false }, [true, false], false⟩
  | some lp =>
      if lp = "" then
        ⟨{ s1 with
            error := some "Please first select a game folder or build in the library."
            isLaunching := false }, [true, false], false⟩
      else
        match st.user with
        | none =>
            ⟨{ s1 with error := some "No login details found.", isLaunching := false },
              [true, false], false⟩
        | some _ =>
            match cmd with
            | .error e =>
                ⟨{ s1 with error := some ("Fehler beim Start: " ++ e), isLaunching := false },
                  [true, false], true⟩
            | .ok _ => ⟨s1, [true], true⟩

/-- The durable key-value store (`localStorage`) keys the launcher touches:
the session credentials (`"user"`), the toggle (`"EOR"`), the selected
path (`"buildPath"`), the persisted build list (`"PabloMP.builds"`) and
the two store-API settings keys. `none` means the key is absent. -/
structure Store where
  userKey : Option (String × String)
  eorKey : Option String
  buildPathKey : Option String
  buildsKey : Option (List BuildItem)
  storeApiUrlKey : Option String
  storeApiKeyKey : Option String
deriving DecidableEq, Repr

/-- `localStorage.clear()`: every key removed. -/
def Store.clearAll : Store := ⟨none, none, none, none, none, none⟩

/-- `handleLogout` (onboard.tsx 201-207) together with the persistence
effects the state changes trigger: `localStorage.clear()`, then
`setUser(null)`, `setPath(null)`, `setBuilds([])`; the `builds` effect
(onboard.tsx 101-103) then writes the empty list back under
`"PabloMP.builds"`, and the `path` effect (onboard.tsx 105-107) removes
`"buildPath"` since the path is now null. -/
def handleLogout (st : AppState) : AppState × Store :=
  let store1 := Store.clearAll
  let st1 := { st with user := none, path := none, builds := [] }
  let store2 := { store1 with buildsKey := some st1.builds }
  let store3 := { store2 with buildPathKey := none }
  (st1, store3)

/-- One liveness query processed by `run` (onboard.tsx 113-120) while the
supervisor is `Launching`: `r === false` and a thrown query both set
`isLaunching` to `false`; `r === true` leaves it `true`. -/
def pollQuery : Except Unit Bool → Bool
  | .ok true => true
  | .ok false => false
  | .error _ => false

/-- The polling loop (onboard.tsx 110-129) from the `Launching` state,
fed the host's successive liveness answers: the states after each
query, stopping after the first query that reports not-running or
fails (the effect cleanup then clears the interval). The number of
queries issued is the length of this trace. -/
def pollTrace : List (Except Unit Bool) → List Bool
  | [] => []
  | q :: rest =>
      if pollQuery q then true :: pollTrace rest else [false]

/-- Issue times of the polling queries in milliseconds: `run()` is called
immediately on entering `Launching`, then `setInterval(run, 3000)`
fires every 3000 ms (onboard.tsx 121-124). -/
def queryTimesMs (n : Nat) : List Nat := (List.range n).map (· * 3000)

/-- Full launch-supervision state sequence starting from `Idle`, given
that both preconditions hold: `false` (Idle), then `true` (Launching);
a rejected command reverts to `Idle` with no query issued, an accepted
one enters the polling loop. Returns the state sequence and the number
of liveness queries issued. -/
def superviseTrace (cmd : Except String Unit) (qs : List (Except Unit Bool)) :
    List Bool × Nat :=
  match cmd with
  | .error _ => ([false, true, false], 0)
  | .ok _ => ([false, true] ++ pollTrace qs, (pollTrace qs).length)

/-- A registry mutation, for the capacity invariant: one `addBuild` call
(with its dialog result, generated id and filesystem answers) or one
`removeBuild` call. -/
inductive RegOp where
  | add (selected newId : String) (env : FsEnv)
  | remove (id : String)

/-- Apply one registry mutation to the state. -/
def applyOp (st : AppState) : RegOp → AppState
  | .add selected newId env => (addBuild st selected newId env).state
  | .remove id => removeBuild st id

/-- The chunked construction of the binary string is the identity on the
byte list: the concatenation of the `0x8000`-byte sub-lists is the list
itself. -/
theorem chunkedBinary_eq (l : List Nat) : chunkedBinary l = l := by
  have h : ∀ n (l : List Nat), l.length ≤ n → chunkedBinary l = l := by
    intro n
    induction n with
    | zero =>
      intro l hl
      have hnil : l = [] := List.eq_nil_of_length_eq_zero (Nat.le_zero.mp hl)
      subst hnil
      rw [chunkedBinary]
      simp
    | succ n ih =>
      intro l hl
      by_cases hc : l = []
      · subst hc; rw [chunkedBinary]; simp
      · rw [chunkedBinary]
        simp only [hc, if_false]
        rw [ih (l.drop chunkSize) (by
          have hpos : 0 < l.length := List.length_pos.mpr hc
          simp only [List.length_drop, chunkSize]
          omega)]
        exact List.take_append_drop _ _
  exact h l.length l le_rfl

/-- On a candidate rejected by the Engine probe, `addBuild` leaves builds
and selection unchanged. -/
theorem addBuild_invalid (st : AppState) (sel nid : String) (env : FsEnv)
    (h : env.engineExists = .ok false) :
    (addBuild st sel nid env).state.builds = st.builds ∧
    (addBuild st sel nid env).state.path = st.path ∧
    (addBuild st sel nid env).outcome = .notAnInstallation := by
  simp [addBuild, h]

/-- With 16 or more entries and a candidate passing the Engine probe,
`addBuild` rejects as full and leaves builds and selection unchanged. -/
theorem addBuild_full (st : AppState) (sel nid : String) (env : FsEnv)
    (h16 : st.builds.length ≥ 16) (hok : env.engineExists = .ok true) :
    (addBuild st sel nid env).state.builds = st.builds ∧
    (addBuild st sel nid env).state.path = st.path ∧
    (addBuild st sel nid env).outcome = .full := by
  simp [addBuild, hok, h16]

/-- Valid candidate, free capacity, no splash resource: the entry is
prepended with no cover and the selection moves to it. -/
theorem addBuild_noSplash (st : AppState) (sel nid : String) (env : FsEnv)
    (hok : env.engineExists = .ok true) (hlen : st.builds.length < 16)
    (hs : env.splashExists = .ok false) :
    (addBuild st sel nid env).state.builds =
      { id := nid, path := sel, name := getFolderName sel, coverDataUrl := none } :: st.builds ∧
    (addBuild st sel nid env).state.path = some sel ∧
    (addBuild st sel nid env).outcome = .added := by
  simp [addBuild, hok, hs, Nat.not_le.mpr hlen]

/-- Valid candidate, free capacity, splash present but its read throws:
the `catch` block only surfaces an error, no entry is created. -/
theorem addBuild_readFail (st : AppState) (sel nid : String) (env : FsEnv) (e : String)
    (hok : env.engineExists = .ok true) (hlen : st.builds.length < 16)
    (hs : env.splashExists = .ok true) (hr : env.splashRead = .error e) :
    (addBuild st sel nid env).state.builds = st.builds ∧
    (addBuild st sel nid env).state.path = st.path ∧
    (addBuild st sel nid env).outcome = .fsError e := by
  simp [addBuild, hok, hs, hr, Nat.not_le.mpr hlen]

/-- Every `addBuild` run either leaves builds and selection unchanged
(and did not add), or prepends exactly the freshly built entry, selects
its path, and had free capacity. -/
theorem addBuild_cases (st : AppState) (sel nid : String) (env : FsEnv) :
    ((addBuild st sel nid env).state.builds = st.builds ∧
      (addBuild st sel nid env).state.path = st.path ∧
      (addBuild st sel nid env).outcome ≠ .added) ∨
    (∃ cover, (addBuild st sel nid env).state.builds =
        { id := nid, path := sel, name := getFolderName sel, coverDataUrl := cover } :: st.builds ∧
      (addBuild st sel nid env).state.path = some sel ∧
      (addBuild st sel nid env).outcome = .added ∧ st.builds.length < 16) := by
  rcases env with ⟨ee, se, sr⟩
  rcases ee with e | b
  · left; simp [addBuild]
  · rcases b with _ | _
    · left; simp [addBuild]
    · by_cases h16 : st.builds.length ≥ 16
      · left; simp [addBuild, h16]
      · rcases se with e | hs
        · left; simp [addBuild, h16]
        · rcases hs with _ | _
          · right; exact ⟨none, by simp [addBuild, h16, Nat.lt_of_not_le h16]⟩
          · rcases sr with e | bytes
            · left; simp [addBuild, h16]
            · right
              exact ⟨some ("data:image/bmp;base64," ++ bytesToBase64 bytes),
                by simp [addBuild, h16, Nat.lt_of_not_le h16]⟩

/-- C9: for every byte array, the chunked binary-to-base64 encoding
(chunks of `0x8000` bytes) produces exactly the same output string as
the single-pass base64 encoding of the whole buffer. -/
theorem bytesToBase64_eq_singlePass (bytes : List Nat) :
    bytesToBase64 bytes = singlePassBase64 bytes := by
  unfold bytesToBase64 singlePassBase64
  rw [chunkedBinary_eq]

/-- C8: for every candidate path whose Engine probe reports absence,
`addBuild` rejects the candidate and leaves the build list (hence its
length and order) and the selected path exactly unchanged. -/
theorem addBuild_invalid_frame (st : AppState) (sel nid : String) (env : FsEnv)
    (h : env.engineExists = .ok false) :
    (addBuild st sel nid env).state.builds = st.builds ∧
    (addBuild st sel nid env).state.path = st.path ∧
    (addBuild st sel nid env).outcome = .notAnInstallation :=
  addBuild_invalid st sel nid env h

/-- Witness for C8 at a concrete one-entry registry and a candidate
without the Engine subdirectory. -/
theorem addBuild_invalid_frame_witness :
    (addBuild ⟨[⟨"a", "/g/A", "A", none⟩], some "/g/A", some ("e", "p"), false, false, none⟩
        "/bad" "id1" ⟨.ok false, .ok false, .ok []⟩).state.builds =
      [⟨"a", "/g/A", "A", none⟩] ∧
    (addBuild ⟨[⟨"a", "/g/A", "A", none⟩], some "/g/A", some ("e", "p"), false, false, none⟩
        "/bad" "id1" ⟨.ok false, .ok false, .ok []⟩).state.path = some "/g/A" ∧
    (addBuild ⟨[⟨"a", "/g/A", "A", none⟩], some "/g/A", some ("e", "p"), false, false, none⟩
        "/bad" "id1" ⟨.ok false, .ok false, .ok []⟩).outcome = .notAnInstallation :=
  addBuild_invalid_frame _ "/bad" "id1" _ rfl

/-- C10: the derived display name is the last non-empty segment after
splitting on `/` and `\` (empty when there is none, in which case the
input itself is returned), and the entry created by `addBuild` carries
exactly this name. -/
theorem getFolderName_spec (p : String) :
    (((jsSplitSeps p.toList).filter (fun s => s ≠ [])) = [] → getFolderName p = p) ∧
    (∀ l, ((jsSplitSeps p.toList).filter (fun s => s ≠ [])).getLast? = some l →
      l ≠ [] ∧ getFolderName p = String.mk l) ∧
    (∀ st nid env, (addBuild st p nid env).outcome = .added →
      ((addBuild st p nid env).state.builds.head?.map (·.name)) = some (getFolderName p)) := by
  refine ⟨?_, ?_, ?_⟩
  · intro h
    simp only [getFolderName]
    rw [h]
    rfl
  · intro l hl
    have hmem : l ∈ (jsSplitSeps p.toList).filter (fun s => s ≠ []) := by
      obtain ⟨hne, heq⟩ := List.mem_getLast?_eq_getLast (Option.mem_def.mpr hl)
      exact heq ▸ List.getLast_mem hne
    have hlne : l ≠ [] := by simpa using (List.mem_filter.mp hmem).2
    refine ⟨hlne, ?_⟩
    simp only [getFolderName]
    rw [hl]
    simp [hlne]
  · intro st nid env h
    rcases addBuild_cases st p nid env with ⟨_, _, hno⟩ | ⟨cover, hb, _, _, _⟩
    · exact absurd h hno
    · rw [hb]; rfl

/-- Witness for C10 at `"/games/Foo"`, whose last non-empty segment is
`Foo`, and at a concrete successful `addBuild` run. -/
theorem getFolderName_spec_witness :
    (['F', 'o', 'o'] ≠ [] ∧ getFolderName "/games/Foo" = String.mk ['F', 'o', 'o']) ∧
    ((addBuild ⟨[], none, none, false, false, none⟩ "/games/Foo" "id1"
        ⟨.ok true, .ok false, .ok []⟩).state.builds.head?.map (·.name)) =
      some (getFolderName "/games/Foo") :=
  ⟨(getFolderName_spec "/games/Foo").2.1 ['F', 'o', 'o'] (by decide),
   (getFolderName_spec "/games/Foo").2.2 ⟨[], none, none, false, false, none⟩ "id1"
      ⟨.ok true, .ok false, .ok []⟩ (by decide)⟩

/-- The Engine probe is issued on every `addBuild` run, whatever branch
the run takes. -/
theorem addBuild_validator_always (st : AppState) (sel nid : String) (env : FsEnv) :
    (addBuild st sel nid env).validatorInvoked = true := by
  rcases env with ⟨ee, se, sr⟩
  rcases ee with e | b
  · simp [addBuild]
  · rcases b with _ | _
    · simp [addBuild]
    · by_cases h16 : st.builds.length ≥ 16
      · simp [addBuild, h16]
      · rcases se with e | hs
        · simp [addBuild, h16]
        · rcases hs with _ | _
          · simp [addBuild, h16]
          · rcases sr with e | bytes <;> simp [addBuild, h16]

/-- Counterexample to C1 as stated: a candidate whose Engine subdirectory
exists and whose cover resource is present but fails to read does NOT
get an entry — the registry stays empty and the run did not add. -/
theorem addBuild_cover_read_failure_blocks_cex :
    (addBuild ⟨[], none, none, false, false, none⟩ "/games/Foo" "id1"
        ⟨.ok true, .ok true, .error "read failed"⟩).state.builds = [] ∧
    (addBuild ⟨[], none, none, false, false, none⟩ "/games/Foo" "id1"
        ⟨.ok true, .ok true, .error "read failed"⟩).outcome ≠ .added := by
  decide

/-- C1 (amended): when the Engine subdirectory is present and there is
capacity, an ABSENT cover resource never prevents entry creation (the
entry is appended with no cover); a FAILURE while reading a present
cover resource, however, aborts the add — an error is surfaced and no
entry is created. -/
theorem addBuild_cover_behavior (st : AppState) (sel nid : String) (env : FsEnv)
    (hok : env.engineExists = .ok true) (hlen : st.builds.length < 16) :
    (env.splashExists = .ok false →
      (addBuild st sel nid env).state.builds =
        ⟨nid, sel, getFolderName sel, none⟩ :: st.builds ∧
      (addBuild st sel nid env).outcome = .added) ∧
    (∀ e, env.splashExists = .ok true → env.splashRead = .error e →
      (addBuild st sel nid env).state.builds = st.builds ∧
      (addBuild st sel nid env).outcome = .fsError e) := by
  constructor
  · intro hs
    obtain ⟨h1, _, h3⟩ := addBuild_noSplash st sel nid env hok hlen hs
    exact ⟨h1, h3⟩
  · intro e hs hr
    obtain ⟨h1, _, h3⟩ := addBuild_readFail st sel nid env e hok hlen hs hr
    exact ⟨h1, h3⟩

/-- Witness for C1 (amended) at an empty registry: one run with the cover
absent (entry created, no cover), one with a failing cover read (no
entry). -/
theorem addBuild_cover_behavior_witness :
    ((addBuild ⟨[], none, none, false, false, none⟩ "/games/Foo" "id1"
        ⟨.ok true, .ok false, .ok []⟩).state.builds =
      ⟨"id1", "/games/Foo", getFolderName "/games/Foo", none⟩ :: [] ∧
     (addBuild ⟨[], none, none, false, false, none⟩ "/games/Foo" "id1"
        ⟨.ok true, .ok false, .ok []⟩).outcome = .added) ∧
    ((addBuild ⟨[], none, none, false, false, none⟩ "/games/Foo" "id1"
        ⟨.ok true, .ok true, .error "boom"⟩).state.builds = [] ∧
     (addBuild ⟨[], none, none, false, false, none⟩ "/games/Foo" "id1"
        ⟨.ok true, .ok true, .error "boom"⟩).outcome = .fsError "boom") :=
  ⟨(addBuild_cover_behavior ⟨[], none, none, false, false, none⟩ "/games/Foo" "id1"
      ⟨.ok true, .ok false, .ok []⟩ rfl (by decide)).1 rfl,
   (addBuild_cover_behavior ⟨[], none, none, false, false, none⟩ "/games/Foo" "id1"
      ⟨.ok true, .ok true, .error "boom"⟩ rfl (by decide)).2 "boom" rfl rfl⟩

/-- Counterexample to C2 as stated: with 16 entries, a candidate lacking
the Engine subdirectory is rejected as not-an-installation, not as
full — so the capacity precondition is NOT checked before validation —
and even a run that does reject as full has issued the Engine probe. -/
theorem addBuild_full_after_validation_cex :
    (addBuild ⟨List.replicate 16 ⟨"a", "/g/a", "a", none⟩, none, none, false, false, none⟩
        "/bad" "id1" ⟨.ok false, .ok false, .ok []⟩).outcome = .notAnInstallation ∧
    AddOutcome.notAnInstallation ≠ AddOutcome.full ∧
    (addBuild ⟨List.replicate 16 ⟨"a", "/g/a", "a", none⟩, none, none, false, false, none⟩
        "/ok" "id1" ⟨.ok true, .ok false, .ok []⟩).validatorInvoked = true := by
  decide

/-- C2 (amended): whenever the registry already holds 16 entries and the
candidate passes the Engine validation, `addBuild` rejects as full and
leaves the build list and selection unchanged — but the validation
probe has been issued first (validation precedes the capacity check). -/
theorem addBuild_full_after_validation (st : AppState) (sel nid : String) (env : FsEnv)
    (h16 : st.builds.length = 16) (hok : env.engineExists = .ok true) :
    (addBuild st sel nid env).outcome = .full ∧
    (addBuild st sel nid env).state.builds = st.builds ∧
    (addBuild st sel nid env).state.path = st.path ∧
    (addBuild st sel nid env).validatorInvoked = true := by
  obtain ⟨h1, h2, h3⟩ := addBuild_full st sel nid env h16.ge hok
  exact ⟨h3, h1, h2, addBuild_validator_always st sel nid env⟩

/-- Witness for C2 (amended) at a concrete 16-entry registry and a
candidate passing validation. -/
theorem addBuild_full_after_validation_witness :
    (addBuild ⟨List.replicate 16 ⟨"a", "/g/a", "a", none⟩, some "/g/a", none, false, false, none⟩
        "/ok" "id1" ⟨.ok true, .ok false, .ok []⟩).outcome = .full ∧
    (addBuild ⟨List.replicate 16 ⟨"a", "/g/a", "a", none⟩, some "/g/a", none, false, false, none⟩
        "/ok" "id1" ⟨.ok true, .ok false, .ok []⟩).state.builds =
      List.replicate 16 ⟨"a", "/g/a", "a", none⟩ ∧
    (addBuild ⟨List.replicate 16 ⟨"a", "/g/a", "a", none⟩, some "/g/a", none, false, false, none⟩
        "/ok" "id1" ⟨.ok true, .ok false, .ok []⟩).state.path = some "/g/a" ∧
    (addBuild ⟨List.replicate 16 ⟨"a", "/g/a", "a", none⟩, some "/g/a", none, false, false, none⟩
        "/ok" "id1" ⟨.ok true, .ok false, .ok []⟩).validatorInvoked = true :=
  addBuild_full_after_validation
    ⟨List.replicate 16 ⟨"a", "/g/a", "a", none⟩, some "/g/a", none, false, false, none⟩
    "/ok" "id1" ⟨.ok true, .ok false, .ok []⟩ (by decide) rfl

/-- The build list after `removeBuild` is always the filtered list,
whichever selection branch is taken. -/
theorem removeBuild_builds (st : AppState) (id : String) :
    (removeBuild st id).builds = st.builds.filter (fun b => b.id ≠ id) := by
  unfold removeBuild
  rcases hf : st.builds.find? (fun b => b.id = id) with _ | r
  · simp [hf]
  · simp only [hf]
    split <;> rfl

/-- One registry mutation preserves the 16-entry bound. -/
theorem applyOp_length_le (st : AppState) (op : RegOp) (h : st.builds.length ≤ 16) :
    (applyOp st op).builds.length ≤ 16 := by
  cases op with
  | add sel nid env =>
    rcases addBuild_cases st sel nid env with ⟨hb, _, _⟩ | ⟨cover, hb, _, _, hlt⟩
    · simpa only [applyOp, hb]
    · simp only [applyOp, hb, List.length_cons]
      omega
  | remove id =>
    simp only [applyOp, removeBuild_builds]
    exact le_trans (List.length_filter_le _ _) h

/-- C5: for every sequence of add and remove operations starting from a
registry of length at most 16, the registry length never exceeds 16;
and an add against a registry of exactly 16 entries whose candidate
passes validation is rejected as full with the registry unchanged. -/
theorem registry_capacity_invariant :
    (∀ (st : AppState) (ops : List RegOp), st.builds.length ≤ 16 →
      (ops.foldl applyOp st).builds.length ≤ 16) ∧
    (∀ (st : AppState) (sel nid : String) (env : FsEnv),
      st.builds.length = 16 → env.engineExists = .ok true →
      (addBuild st sel nid env).outcome = .full ∧
      (addBuild st sel nid env).state.builds = st.builds) := by
  constructor
  · intro st ops h
    induction ops generalizing st with
    | nil => simpa
    | cons op rest ih =>
      simpa only [List.foldl_cons] using ih (applyOp st op) (applyOp_length_le st op h)
  · intro st sel nid env h16 hok
    obtain ⟨h1, _, h3⟩ := addBuild_full st sel nid env h16.ge hok
    exact ⟨h3, h1⟩

/-- Witness for C5: a concrete remove-then-add-then-add sequence from a
one-entry registry stays within the bound, and a concrete 17th add
against 16 entries is rejected as full. -/
theorem registry_capacity_invariant_witness :
    (([RegOp.remove "a", RegOp.add "/g/B" "b" ⟨.ok true, .ok false, .ok []⟩,
        RegOp.add "/g/C" "c" ⟨.ok true, .ok false, .ok []⟩].foldl applyOp
      ⟨[⟨"a", "/g/A", "A", none⟩], some "/g/A", none, false, false, none⟩).builds.length ≤ 16) ∧
    ((addBuild ⟨List.replicate 16 ⟨"a", "/g/a", "a", none⟩, none, none, false, false, none⟩
        "/g/D" "d" ⟨.ok true, .ok false, .ok []⟩).outcome = .full ∧
     (addBuild ⟨List.replicate 16 ⟨"a", "/g/a", "a", none⟩, none, none, false, false, none⟩
        "/g/D" "d" ⟨.ok true, .ok false, .ok []⟩).state.builds =
      List.replicate 16 ⟨"a", "/g/a", "a", none⟩) :=
  ⟨registry_capacity_invariant.1
      ⟨[⟨"a", "/g/A", "A", none⟩], some "/g/A", none, false, false, none⟩
      [RegOp.remove "a", RegOp.add "/g/B" "b" ⟨.ok true, .ok false, .ok []⟩,
        RegOp.add "/g/C" "c" ⟨.ok true, .ok false, .ok []⟩] (by decide),
   registry_capacity_invariant.2
      ⟨List.replicate 16 ⟨"a", "/g/a", "a", none⟩, none, none, false, false, none⟩
      "/g/D" "d" ⟨.ok true, .ok false, .ok []⟩ (by decide) rfl⟩

/-- C6: removing the entry found by id whose path equals the selection
reassigns the selection to the new first entry's path (empty when the
registry becomes empty); removing an entry whose path differs from the
selection leaves the selection unchanged; removing an absent id leaves
the whole state unchanged. -/
theorem removeBuild_selection_spec (st : AppState) (id : String) :
    (∀ r, st.builds.find? (fun b => b.id = id) = some r → st.path = some r.path →
      (removeBuild st id).path =
        ((st.builds.filter (fun b => b.id ≠ id)).head?).map (·.path)) ∧
    (∀ r, st.builds.find? (fun b => b.id = id) = some r → st.path ≠ some r.path →
      (removeBuild st id).path = st.path) ∧
    (st.builds.find? (fun b => b.id = id) = none → removeBuild st id = st) := by
  refine ⟨?_, ?_, ?_⟩
  · intro r hf hp
    unfold removeBuild
    simp only [hf, if_pos hp]
  · intro r hf hp
    unfold removeBuild
    simp only [hf, if_neg hp]
  · intro hf
    have hfilter : st.builds.filter (fun b => b.id ≠ id) = st.builds := by
      rw [List.filter_eq_self]
      intro b hb
      have := List.find?_eq_none.mp hf b hb
      simpa using this
    unfold removeBuild
    simp only [hf, hfilter]

/-- Witness for C6: a two-entry registry with the first (selected) entry
removed, a removal of the non-selected entry, and a removal of an
absent id. -/
theorem removeBuild_selection_spec_witness :
    ((removeBuild ⟨[⟨"a", "/g/A", "A", none⟩, ⟨"b", "/g/B", "B", none⟩],
        some "/g/A", none, false, false, none⟩ "a").path =
      ((([⟨"a", "/g/A", "A", none⟩, ⟨"b", "/g/B", "B", none⟩] : List BuildItem).filter
          (fun b => b.id ≠ "a")).head?).map (·.path)) ∧
    ((removeBuild ⟨[⟨"a", "/g/A", "A", none⟩, ⟨"b", "/g/B", "B", none⟩],
        some "/g/A", none, false, false, none⟩ "b").path = some "/g/A") ∧
    (removeBuild ⟨[⟨"a", "/g/A", "A", none⟩], some "/g/A", none, false, false, none⟩ "zzz" =
      ⟨[⟨"a", "/g/A", "A", none⟩], some "/g/A", none, false, false, none⟩) :=
  ⟨(removeBuild_selection_spec
      ⟨[⟨"a", "/g/A", "A", none⟩, ⟨"b", "/g/B", "B", none⟩],
        some "/g/A", none, false, false, none⟩ "a").1
      ⟨"a", "/g/A", "A", none⟩ (by decide) (by decide),
   (removeBuild_selection_spec
      ⟨[⟨"a", "/g/A", "A", none⟩, ⟨"b", "/g/B", "B", none⟩],
        some "/g/A", none, false, false, none⟩ "b").2.1
      ⟨"b", "/g/B", "B", none⟩ (by decide) (by decide),
   (removeBuild_selection_spec
      ⟨[⟨"a", "/g/A", "A", none⟩], some "/g/A", none, false, false, none⟩ "zzz").2.2
      (by decide)⟩

/-- Counterexample to C3 as stated: with no selected build, an empty
registry and no session, the precondition fails, yet `handleLaunch`
assigns `true` to the launch flag first (the flag sequence of the call
is `[true, false]`): the state flips to Launching BEFORE the
precondition checks run, and is reset to Idle afterwards. -/
theorem handleLaunch_flips_before_checks_cex :
    resolveLaunchPath ⟨[], none, none, false, false, none⟩ = none ∧
    (handleLaunch ⟨[], none, none, false, false, none⟩ (.ok ())).launchingAssignments =
      [true, false] ∧
    true ∈ (handleLaunch ⟨[], none, none, false, false, none⟩ (.ok ())).launchingAssignments ∧
    (handleLaunch ⟨[], none, none, false, false, none⟩ (.ok ())).state.isLaunching = false := by
  decide

/-- C3 (amended): on every precondition failure `handleLaunch` surfaces
the corresponding error, issues no external command, and ends with the
launch flag false (Idle) — but the flag is set to `true` on entry,
before the checks, and reset to `false` on failure (assignment
sequence `[true, false]`), rather than the checks preceding the flip. -/
theorem handleLaunch_precondition_failures (st : AppState) (cmd : Except String Unit) :
    (strTruthy (resolveLaunchPath st) = false →
      (handleLaunch st cmd).state.isLaunching = false ∧
      (handleLaunch st cmd).state.error =
        some "Please first select a game folder or build in the library." ∧
      (handleLaunch st cmd).commandIssued = false ∧
      (handleLaunch st cmd).launchingAssignments = [true, false]) ∧
    (strTruthy (resolveLaunchPath st) = true → st.user = none →
      (handleLaunch st cmd).state.isLaunching = false ∧
      (handleLaunch st cmd).state.error = some "No login details found." ∧
      (handleLaunch st cmd).commandIssued = false ∧
      (handleLaunch st cmd).launchingAssignments = [true, false]) := by
  rcases hr : resolveLaunchPath st with _ | lp
  · constructor
    · intro _
      simp [handleLaunch, hr]
    · intro htrue _
      exact absurd htrue (by decide)
  · by_cases hlp : lp = ""
    · subst hlp
      constructor
      · intro _
        simp [handleLaunch, hr]
      · intro htrue _
        exact absurd htrue (by decide)
    · constructor
      · intro hfalse
        simp [strTruthy, hlp] at hfalse
      · intro _ huser
        rcases hu : st.user with _ | u
        · simp [handleLaunch, hr, hlp, hu]
        · rw [hu] at huser
          exact absurd huser (by simp)

/-- Witness for C3 (amended): a no-build call and a build-but-no-session
call, both ending Idle with the right error and no command. -/
theorem handleLaunch_precondition_witness :
    ((handleLaunch ⟨[], none, none, false, false, none⟩ (.ok ())).state.isLaunching = false ∧
     (handleLaunch ⟨[], none, none, false, false, none⟩ (.ok ())).state.error =
       some "Please first select a game folder or build in the library." ∧
     (handleLaunch ⟨[], none, none, false, false, none⟩ (.ok ())).commandIssued = false ∧
     (handleLaunch ⟨[], none, none, false, false, none⟩ (.ok ())).launchingAssignments =
       [true, false]) ∧
    ((handleLaunch ⟨[⟨"a", "/g/A", "A", none⟩], some "/g/A", none, false, false, none⟩
        (.ok ())).state.isLaunching = false ∧
     (handleLaunch ⟨[⟨"a", "/g/A", "A", none⟩], some "/g/A", none, false, false, none⟩
        (.ok ())).state.error = some "No login details found." ∧
     (handleLaunch ⟨[⟨"a", "/g/A", "A", none⟩], some "/g/A", none, false, false, none⟩
        (.ok ())).commandIssued = false ∧
     (handleLaunch ⟨[⟨"a", "/g/A", "A", none⟩], some "/g/A", none, false, false, none⟩
        (.ok ())).launchingAssignments = [true, false]) :=
  ⟨(handleLaunch_precondition_failures ⟨[], none, none, false, false, none⟩ (.ok ())).1 rfl,
   (handleLaunch_precondition_failures
      ⟨[⟨"a", "/g/A", "A", none⟩], some "/g/A", none, false, false, none⟩ (.ok ())).2 rfl rfl⟩

/-- C4: after `handleLogout` and the persistence effects it triggers, the
durable store holds no session credentials, no toggle, no selected
path and an empty build list (every other launcher key removed), and
the in-memory session, selection and registry are cleared. -/
theorem handleLogout_total_reset (st : AppState) :
    (handleLogout st).2.userKey = none ∧
    (handleLogout st).2.eorKey = none ∧
    (handleLogout st).2.buildPathKey = none ∧
    (handleLogout st).2.buildsKey = some [] ∧
    (handleLogout st).2.storeApiUrlKey = none ∧
    (handleLogout st).2.storeApiKeyKey = none ∧
    (handleLogout st).1.user = none ∧
    (handleLogout st).1.path = none ∧
    (handleLogout st).1.builds = [] :=
  ⟨rfl, rfl, rfl, rfl, rfl, rfl, rfl, rfl, rfl⟩

/-- C7: with both preconditions satisfied, a successful launch command, a
first liveness answer `true` and a second `false`, the state sequence
is Idle, Launching, Launching, Idle with exactly two queries issued;
the queries fire at 0 ms, 3000 ms, ... (the first immediately); and a
query that fails or reports not-running always sets the state to Idle
and ends the loop. -/
theorem polling_loop_spec :
    superviseTrace (.ok ()) [.ok true, .ok false] = ([false, true, true, false], 2) ∧
    queryTimesMs 2 = [0, 3000] ∧
    (∀ e, pollQuery (.error e) = false) ∧
    pollQuery (.ok false) = false ∧
    (∀ q rest, pollQuery q = false → pollTrace (q :: rest) = [false]) ∧
    (∀ n, 0 < n → (queryTimesMs n).head? = some 0) := by
  refine ⟨rfl, rfl, fun e => rfl, rfl, ?_, ?_⟩
  · intro q rest h
    simp [pollTrace, h]
  · intro n hn
    obtain ⟨m, rfl⟩ := Nat.exists_eq_succ_of_ne_zero hn.ne'
    simp [queryTimesMs, List.range_succ_eq_map]

/-- Witness for C7: a failed first query ends the loop at once, and the
first of three scheduled query times is 0 ms. -/
theorem polling_loop_witness :
    pollTrace [Except.error (), Except.ok true] = [false] ∧
    (queryTimesMs 3).head? = some 0 :=
  ⟨polling_loop_spec.2.2.2.2.1 (Except.error ()) [Except.ok true] rfl,
   polling_loop_spec.2.2.2.2.2 3 (by decide)⟩
